import Mathlib

/-!
# Verification of the `threads` query resolver of ssb-patchql

Shallow embedding of `src/graphql/root.rs`: the cursor codec
(`decode_cursor` / `encode_cursor`), the boxed-query builder used by the
`threads` field (diesel's `or_filter` / `filter` composition), the privacy
narrowing, the direction-aware cursor bounds, the final root-post
restriction with ordering / limit / distinct, and the assembly of the
`ThreadConnection` with its `PageInfo`.

Machine integers are modelled as `Int` with explicit range side conditions;
fallible database loads are modelled as `Except`; the single `.unwrap()`
on the final query execution is modelled as a distinct aborting outcome.
-/

namespace SsbPatchql

/-! ## Base64 codec (model of the `base64` crate, standard alphabet with padding) -/

/-- Character of the standard base64 alphabet at index `i < 64`. -/
def b64Char (i : Nat) : Char :=
  if i < 26 then Char.ofNat (65 + i)
  else if i < 52 then Char.ofNat (97 + (i - 26))
  else if i < 62 then Char.ofNat (48 + (i - 52))
  else if i = 62 then '+'
  else '/'

/-- Index of a character in the standard base64 alphabet, `none` if absent. -/
def b64Index (c : Char) : Option Nat :=
  if 65 ≤ c.toNat ∧ c.toNat ≤ 90 then some (c.toNat - 65)
  else if 97 ≤ c.toNat ∧ c.toNat ≤ 122 then some (c.toNat - 97 + 26)
  else if 48 ≤ c.toNat ∧ c.toNat ≤ 57 then some (c.toNat - 48 + 52)
  else if c = '+' then some 62
  else if c = '/' then some 63
  else none

/-- Base64-encode a byte list (each entry `< 256`), 3 bytes to 4 chars,
with `=` padding, as the `base64` crate's standard config does. -/
def b64EncodeGroups : List Nat → List Char
  | b0 :: b1 :: b2 :: rest =>
      b64Char (b0 / 4) :: b64Char ((b0 % 4) * 16 + b1 / 16) ::
      b64Char ((b1 % 16) * 4 + b2 / 64) :: b64Char (b2 % 64) :: b64EncodeGroups rest
  | [b0, b1] =>
      [b64Char (b0 / 4), b64Char ((b0 % 4) * 16 + b1 / 16), b64Char ((b1 % 16) * 4), '=']
  | [b0] => [b64Char (b0 / 4), b64Char ((b0 % 4) * 16), '=', '=']
  | [] => []

/-- Base64-decode a char list in groups of 4, honouring `=` padding on the
last group; `none` on any malformed input. -/
def b64DecodeGroups : List Char → Option (List Nat)
  | [] => some []
  | c0 :: c1 :: c2 :: c3 :: rest =>
    match b64Index c0, b64Index c1 with
    | some i0, some i1 =>
      if c2 = '=' ∧ c3 = '=' ∧ rest = [] then
        some [i0 * 4 + i1 / 16]
      else if c3 = '=' ∧ rest = [] then
        match b64Index c2 with
        | some i2 => some [i0 * 4 + i1 / 16, ((i1 % 16) * 16 + i2 / 4)]
        | none => none
      else
        match b64Index c2, b64Index c3 with
        | some i2, some i3 =>
          (b64DecodeGroups rest).map
            (fun tail => (i0 * 4 + i1 / 16) :: ((i1 % 16) * 16 + i2 / 4) ::
              ((i2 % 4) * 64 + i3) :: tail)
        | _, _ => none
    | _, _ => none
  | _ => none

/-- `base64::encode` on a byte list. -/
def base64Encode (bytes : List Nat) : String := String.mk (b64EncodeGroups bytes)

/-- `base64::decode` on a string; the error message stands for the crate's
`DecodeError` display. -/
def base64Decode (s : String) : Except String (List Nat) :=
  match b64DecodeGroups s.toList with
  | some bytes => Except.ok bytes
  | none => Except.error "invalid base64"

/-! ## Little-endian 64-bit reads/writes -/

/-- `u64::to_le_bytes`: the 8 little-endian bytes of `n < 2^64`. -/
def natToLeBytes8 (n : Nat) : List Nat :=
  [n % 256, n / 256 % 256, n / 256 ^ 2 % 256, n / 256 ^ 3 % 256,
   n / 256 ^ 4 % 256, n / 256 ^ 5 % 256, n / 256 ^ 6 % 256, n / 256 ^ 7 % 256]

/-- `LittleEndian::read_u64`-style read of the first 8 bytes. -/
def leReadU64 (bytes : List Nat) : Nat :=
  (bytes.take 8).foldr (fun b acc => b + 256 * acc) 0

/-- Reinterpret an unsigned 64-bit value as a signed `i64` (two's complement). -/
def i64OfU64 (n : Nat) : Int :=
  if n < 2 ^ 63 then (n : Int) else (n : Int) - 2 ^ 64

/-- Reinterpret a signed `i64` as unsigned (`cursor as u64` in the source). -/
def u64OfI64 (s : Int) : Nat := (s % 2 ^ 64).toNat

/-! ## Cursor codec (`decode_cursor` / `encode_cursor` from `root.rs`) -/

/-- `fn decode_cursor(encoded: &str) -> Result<i64, String>`: base64-decode,
reject byte strings shorter than 8, else read the first 8 bytes as a
little-endian `i64`. -/
def decode_cursor (encoded : String) : Except String Int :=
  match base64Decode encoded with
  | Except.ok bytes =>
      if bytes.length < 8 then
        Except.error "Error decoding cursor. Is it a valid base64 encoded i64?"
      else Except.ok (i64OfU64 (leReadU64 bytes))
  | Except.error err => Except.error err

/-- `fn encode_cursor(cursor: i64) -> String`: base64 of the little-endian
bytes of `cursor as u64`. -/
def encode_cursor (cursor : Int) : String :=
  base64Encode (natToLeBytes8 (u64OfI64 cursor))

/-! ## Data model (`threads`, `authors`, `contacts` relations of the schema) -/

/-- A row of the `threads` relation as selected/filtered by the resolver:
`key_id`, nullable `flume_seq`, `author_id`, `reply_author_id`, nullable
`root_key_id`, `content_type`, `is_decrypted`. -/
structure ThreadRow where
  keyId : Int
  flumeSeq : Option Int
  authorId : Int
  replyAuthorId : Int
  rootKeyId : Option Int
  contentType : String
  isDecrypted : Bool
deriving DecidableEq

/-- A row of the `authors` relation: nullable `id` (loaded as `Option<i32>`
by the resolver) and the public-key string `author`. -/
structure AuthorRow where
  id : Option Int
  author : String
deriving DecidableEq

/-- A row of the `contacts` relation: `author_id`, `contact_author_id`, `state`. -/
structure ContactRow where
  authorId : Int
  contactAuthorId : Int
  state : Int
deriving DecidableEq

/-- The database reachable through the locked connection. `loadFails`
abstracts the failure mode of a diesel `load` call (the `QueryResult` error
case): when set, every load on this connection returns an error. -/
structure Db where
  threads : List ThreadRow
  authors : List AuthorRow
  contacts : List ContactRow
  loadFails : Bool
deriving DecidableEq

/-- A diesel `load` on the connection: fallible, returning the materialized
rows on success. -/
def Db.load {α : Type} (db : Db) (rows : α) : Except String α :=
  if db.loadFails then Except.error "database error" else Except.ok rows

/-- `authors_table.select(authors_id).filter(authors_author.eq_any(authors))`,
loaded as `Vec<Option<i32>>` (used by `roots_authored_by` and
`has_replies_authored_by`). -/
def authoredByIds (db : Db) (authors : List String) : List (Option Int) :=
  (db.authors.filter (fun a => decide (a.author ∈ authors))).map (fun a => a.id)

/-- `authors_table.inner_join(contacts_table.on(authors_id.eq(contacts_author_id.nullable())))
.select(contacts_contact_author_id).filter(authors_author.eq_any(authors))
.filter(contacts_state.eq(1))`, loaded as `Vec<i32>` (used by the two
`..._someone_followed_by` selectors). -/
def followedByIds (db : Db) (authors : List String) : List Int :=
  (db.authors.map (fun a =>
    (db.contacts.filter (fun c =>
      decide (a.id = some c.authorId) && decide (a.author ∈ authors) &&
        decide (c.state = 1))).map (fun c => c.contactAuthorId))).flatten

/-! ## The boxed query builder (diesel `into_boxed` / `or_filter` / `filter`) -/

/-- A boxed query over the `threads` relation: just its optional WHERE
predicate (selection, ordering, limit and distinct are applied at
execution). -/
structure BoxedQuery where
  wherePred : Option (ThreadRow → Bool)

/-- `threads_table.select(...).into_boxed()`: no WHERE clause yet. -/
def BoxedQuery.init : BoxedQuery := ⟨none⟩

/-- diesel `or_filter`: OR the new predicate onto the existing WHERE clause,
or install it as the WHERE clause if there is none yet. -/
def BoxedQuery.or_filter (q : BoxedQuery) (p : ThreadRow → Bool) : BoxedQuery :=
  match q.wherePred with
  | none => ⟨some p⟩
  | some w => ⟨some (fun t => w t || p t)⟩

/-- diesel `filter`: AND the new predicate onto the existing WHERE clause,
or install it as the WHERE clause if there is none yet. -/
def BoxedQuery.filter (q : BoxedQuery) (p : ThreadRow → Bool) : BoxedQuery :=
  match q.wherePred with
  | none => ⟨some p⟩
  | some w => ⟨some (fun t => w t && p t)⟩

/-- Whether a row satisfies the query's WHERE clause (vacuously true when no
clause was installed). -/
def BoxedQuery.matches (q : BoxedQuery) (t : ThreadRow) : Bool :=
  match q.wherePred with
  | none => true
  | some w => w t

/-! ## Arguments and result shapes of the `threads` field -/

inductive Privacy where
  | Public
  | Private
  | All
deriving DecidableEq

inductive OrderBy where
  | Received
  | Asserted
  | Causal
deriving DecidableEq

/-- The arguments of the `threads` field. `mentionsAuthors`,
`mentionsChannels` and `orderBy` are accepted but never read by the
resolver body. -/
structure ThreadsArgs where
  before : Option String
  after : Option String
  next : Int
  privacy : Privacy
  rootsAuthoredBy : Option (List String)
  rootsAuthoredBySomeoneFollowedBy : Option (List String)
  hasRepliesAuthoredBy : Option (List String)
  hasRepliesAuthoredBySomeoneFollowedBy : Option (List String)
  mentionsAuthors : Option (List String)
  mentionsChannels : Option (List String)
  orderBy : OrderBy
deriving DecidableEq

structure PageInfo where
  startCursor : Option String
  endCursor : String
  hasNextPage : Bool
deriving DecidableEq

structure ThreadConnection where
  next : Int
  threadKeys : List Int
  pageInfo : PageInfo
deriving DecidableEq

/-- Outcome of the resolver: a value, a returned `FieldResult` error, or an
abort — the `.unwrap()` on the final `load` panics instead of returning. -/
inductive ThreadsResult where
  | ok : ThreadConnection → ThreadsResult
  | err : String → ThreadsResult
  | panicked : String → ThreadsResult
deriving DecidableEq

/-! ## The `threads` resolver, stage by stage -/

/-- The four optional selector blocks of the resolver, in source order:
each resolves its author list through a load on the connection and
`or_filter`s the resulting id-set clause onto the query. -/
def applySelectors (db : Db) (args : ThreadsArgs) : Except String BoxedQuery := do
  let q0 := BoxedQuery.init
  let q1 ← match args.rootsAuthoredBy with
    | some authors => do
        let ids ← db.load (authoredByIds db authors)
        pure (q0.or_filter (fun t => decide (some t.authorId ∈ ids)))
    | none => pure q0
  let q2 ← match args.rootsAuthoredBySomeoneFollowedBy with
    | some authors => do
        let ids ← db.load (followedByIds db authors)
        pure (q1.or_filter (fun t => decide (t.authorId ∈ ids)))
    | none => pure q1
  let q3 ← match args.hasRepliesAuthoredBySomeoneFollowedBy with
    | some authors => do
        let ids ← db.load (followedByIds db authors)
        pure (q2.or_filter (fun t => decide (t.replyAuthorId ∈ ids)))
    | none => pure q2
  let q4 ← match args.hasRepliesAuthoredBy with
    | some authors => do
        let ids ← db.load (authoredByIds db authors)
        pure (q3.or_filter (fun t => decide (some t.replyAuthorId ∈ ids)))
    | none => pure q3
  pure q4

/-- The privacy narrowing: `filter(is_decrypted = true)` for `Private`,
`filter(is_decrypted = false)` for `Public`, nothing for `All`. -/
def applyPrivacy (q : BoxedQuery) (privacy : Privacy) : BoxedQuery :=
  match privacy with
  | Privacy.Private => q.filter (fun t => t.isDecrypted == true)
  | Privacy.Public => q.filter (fun t => t.isDecrypted == false)
  | Privacy.All => q

/-- SQL `flume_seq > c` on a nullable column (NULL never compares). -/
def seqGtB (seq : Option Int) (c : Int) : Bool :=
  match seq with
  | some s => decide (c < s)
  | none => false

/-- SQL `flume_seq < c` on a nullable column (NULL never compares). -/
def seqLtB (seq : Option Int) (c : Int) : Bool :=
  match seq with
  | some s => decide (s < c)
  | none => false

/-- The cursor stage: `before` alone bounds `flume_seq > decode(before)`,
`after` alone bounds `flume_seq < decode(after)`, neither leaves the query
unchanged, and both together is an error. -/
def applyCursors (q : BoxedQuery) (before after : Option String) :
    Except String BoxedQuery :=
  match before, after with
  | some b, none => do
      let start_cursor ← decode_cursor b
      pure (q.filter (fun t => seqGtB t.flumeSeq start_cursor))
  | none, some a => do
      let start_cursor ← decode_cursor a
      pure (q.filter (fun t => seqLtB t.flumeSeq start_cursor))
  | none, none => pure q
  | some _, some _ => Except.error "Before and After can't be set at the same time."

/-- The unconditional final restrictions:
`.filter(threads_root_key_id.is_null()).filter(threads_content_type.eq("post"))`. -/
def finalQuery (q : BoxedQuery) : BoxedQuery :=
  (q.filter (fun t => t.rootKeyId == none)).filter (fun t => t.contentType == "post")

/-- The whole WHERE-clause pipeline of the resolver, in source order. -/
def composeQuery (db : Db) (args : ThreadsArgs) : Except String BoxedQuery := do
  let q ← applySelectors db args
  let q := applyPrivacy q args.privacy
  let q ← applyCursors q args.before args.after
  pure (finalQuery q)

/-- `.select((threads_key_id, threads_flume_seq))` on a row. -/
def selectRow (t : ThreadRow) : Int × Option Int := (t.keyId, t.flumeSeq)

/-- Ordering used by `ORDER BY flume_seq DESC`: row `a` comes before row `b`
when its sequence is at least `b`'s, with NULL below every value (so NULLs
sort last in descending order). -/
def flumeSeqLe (a b : Option Int) : Bool :=
  match a, b with
  | none, _ => true
  | some _, none => false
  | some x, some y => decide (x ≤ y)

def rowBefore (a b : Int × Option Int) : Prop := flumeSeqLe b.2 a.2 = true

instance : DecidableRel rowBefore := fun a b =>
  inferInstanceAs (Decidable (flumeSeqLe b.2 a.2 = true))

instance : IsTotal (Int × Option Int) rowBefore :=
  ⟨by
    intro a b
    unfold rowBefore flumeSeqLe
    rcases a with ⟨ka, sa⟩
    rcases b with ⟨kb, sb⟩
    cases sa <;> cases sb <;> simp <;> omega⟩

instance : IsTrans (Int × Option Int) rowBefore :=
  ⟨by
    intro a b c hab hbc
    unfold rowBefore flumeSeqLe at *
    rcases a with ⟨ka, sa⟩
    rcases b with ⟨kb, sb⟩
    rcases c with ⟨kc, sc⟩
    cases sa <;> cases sb <;> cases sc <;> simp_all <;> omega⟩

/-- Execute the composed query: SQL applies the WHERE clause, the DISTINCT
on the selected `(key_id, flume_seq)` pairs, the descending order on
`flume_seq`, and the LIMIT. -/
def runQuery (db : Db) (q : BoxedQuery) (limit : Int) : List (Int × Option Int) :=
  (List.insertionSort rowBefore
    (((db.threads.filter q.matches).map selectRow).dedup)).take limit.toNat

/-- The tail of the resolver (source lines 193-223): extract the thread
keys, take the first and last sequence numbers — each
`ok_or("No results found")` modelled by a `none` branch — derive the
`has_next_page` heuristic and build the connection. -/
def assemble (next : Int) (results : List (Int × Option Int)) : ThreadsResult :=
  let thread_keys := results.map Prod.fst
  match results.head? with
  | none => ThreadsResult.err "No results found"
  | some first_row =>
    match first_row.2 with
    | none => ThreadsResult.err "No results found"
    | some first_seq =>
      match results.getLast? with
      | none => ThreadsResult.err "No results found"
      | some last_row =>
        match last_row.2 with
        | none => ThreadsResult.err "No results found"
        | some last_seq =>
          ThreadsResult.ok
            { next := next
              threadKeys := thread_keys
              pageInfo :=
                { startCursor := some (encode_cursor first_seq)
                  endCursor := encode_cursor last_seq
                  hasNextPage := last_seq != 0 } }

/-- The `threads` field resolver. After the WHERE pipeline the query is
executed through a load whose failure is *unwrapped* (an abort, not a
returned error); the rows are then assembled into the connection. -/
def threads (db : Db) (args : ThreadsArgs) : ThreadsResult :=
  match composeQuery db args with
  | Except.error e => ThreadsResult.err e
  | Except.ok q =>
    match db.load (runQuery db q args.next) with
    | Except.error e => ThreadsResult.panicked e
    | Except.ok results => assemble args.next results

/-! ## Spec-side selector predicates -/

/-- Satisfaction of the `roots_authored_by` selector when it is supplied. -/
def satRootsAuthoredBy (db : Db) (args : ThreadsArgs) (t : ThreadRow) : Bool :=
  match args.rootsAuthoredBy with
  | some l => decide (some t.authorId ∈ authoredByIds db l)
  | none => false

/-- Satisfaction of the `roots_authored_by_someone_followed_by` selector. -/
def satRootsFollowed (db : Db) (args : ThreadsArgs) (t : ThreadRow) : Bool :=
  match args.rootsAuthoredBySomeoneFollowedBy with
  | some l => decide (t.authorId ∈ followedByIds db l)
  | none => false

/-- Satisfaction of the `has_replies_authored_by_someone_followed_by` selector. -/
def satRepliesFollowed (db : Db) (args : ThreadsArgs) (t : ThreadRow) : Bool :=
  match args.hasRepliesAuthoredBySomeoneFollowedBy with
  | some l => decide (t.replyAuthorId ∈ followedByIds db l)
  | none => false

/-- Satisfaction of the `has_replies_authored_by` selector. -/
def satRepliesAuthoredBy (db : Db) (args : ThreadsArgs) (t : ThreadRow) : Bool :=
  match args.hasRepliesAuthoredBy with
  | some l => decide (some t.replyAuthorId ∈ authoredByIds db l)
  | none => false

/-- Whether any of the four search selectors is supplied. -/
def anySelector (args : ThreadsArgs) : Bool :=
  args.rootsAuthoredBy.isSome || args.rootsAuthoredBySomeoneFollowedBy.isSome ||
    args.hasRepliesAuthoredBySomeoneFollowedBy.isSome || args.hasRepliesAuthoredBy.isSome

/-- A thread satisfies at least one supplied selector. -/
def selSat (db : Db) (args : ThreadsArgs) (t : ThreadRow) : Bool :=
  satRootsAuthoredBy db args t || satRootsFollowed db args t ||
    satRepliesFollowed db args t || satRepliesAuthoredBy db args t

/-- The privacy clause a given mode appends (`true` = no restriction). -/
def privacyHolds (p : Privacy) (t : ThreadRow) : Bool :=
  match p with
  | Privacy.Public => !t.isDecrypted
  | Privacy.Private => t.isDecrypted
  | Privacy.All => true

/-- The unconditional root-post restriction of the final query. -/
def isRootPost (t : ThreadRow) : Bool :=
  (t.rootKeyId == none) && (t.contentType == "post")

/-- The full match predicate of an uncursored request: OR of the supplied
selectors (unconstrained if none), narrowed by privacy and by the root-post
restriction. -/
def fullMatch (db : Db) (args : ThreadsArgs) (t : ThreadRow) : Bool :=
  ((selSat db args t || !anySelector args) && privacyHolds args.privacy t) && isRootPost t

/-- Strict "comes from a strictly larger sequence number" on nullable
sequence values. -/
def optGt (a b : Option Int) : Prop :=
  match a, b with
  | some x, some y => y < x
  | _, _ => False

/-- The same request with a different privacy mode. -/
def withPrivacy (args : ThreadsArgs) (p : Privacy) : ThreadsArgs :=
  { args with privacy := p }

/-! ## Concrete fixtures used by witnesses -/

def threadRowA : ThreadRow :=
  { keyId := 1, flumeSeq := some 100, authorId := 1, replyAuthorId := 2,
    rootKeyId := none, contentType := "post", isDecrypted := false }

def threadRowB : ThreadRow :=
  { keyId := 2, flumeSeq := some 90, authorId := 2, replyAuthorId := 1,
    rootKeyId := none, contentType := "post", isDecrypted := false }

def threadRowC : ThreadRow :=
  { keyId := 3, flumeSeq := some 80, authorId := 3, replyAuthorId := 3,
    rootKeyId := none, contentType := "post", isDecrypted := true }

def threadRowD : ThreadRow :=
  { keyId := 4, flumeSeq := some 70, authorId := 1, replyAuthorId := 3,
    rootKeyId := none, contentType := "post", isDecrypted := false }

/-- A root post whose stored `flume_seq` is NULL. -/
def threadRowNull : ThreadRow :=
  { keyId := 5, flumeSeq := none, authorId := 1, replyAuthorId := 1,
    rootKeyId := none, contentType := "post", isDecrypted := false }

def dbA : Db :=
  { threads := [threadRowA, threadRowB, threadRowC, threadRowD],
    authors := [⟨some 1, "alice"⟩, ⟨some 2, "bob"⟩, ⟨some 3, "carol"⟩],
    contacts := [⟨1, 2, 1⟩, ⟨2, 3, 1⟩, ⟨1, 3, 0⟩],
    loadFails := false }

def dbNull : Db :=
  { threads := [threadRowNull], authors := [], contacts := [], loadFails := false }

def dbFail : Db := { dbA with loadFails := true }

def argsNone : ThreadsArgs :=
  { before := none, after := none, next := 10, privacy := Privacy.Public,
    rootsAuthoredBy := none, rootsAuthoredBySomeoneFollowedBy := none,
    hasRepliesAuthoredBy := none, hasRepliesAuthoredBySomeoneFollowedBy := none,
    mentionsAuthors := none, mentionsChannels := none, orderBy := OrderBy.Received }

def argsBoth : ThreadsArgs := { argsNone with before := some "x", after := some "y" }

def argsPriv : ThreadsArgs := { argsNone with privacy := Privacy.Private }

/-- A request supplying two disjoint selectors: root posts by "bob" and
threads with replies by "carol". -/
def argsSel : ThreadsArgs :=
  { argsNone with rootsAuthoredBy := some ["bob"], hasRepliesAuthoredBy := some ["carol"] }

/-! ## Helper lemmas on the query builder -/

theorem except_bind_ok {α β : Type} (x : α) (f : α → Except String β) :
    (Except.ok x >>= f) = f x := rfl

theorem except_pure {α : Type} (x : α) : (pure x : Except String α) = Except.ok x := rfl

theorem matches_init (t : ThreadRow) : BoxedQuery.init.matches t = true := rfl

theorem matches_filter (q : BoxedQuery) (p : ThreadRow → Bool) (t : ThreadRow) :
    (q.filter p).matches t = (q.matches t && p t) := by
  rcases q with ⟨_ | w⟩ <;> rfl

/-- The selector stage succeeds on a functioning connection and composes the
supplied selectors by OR; with no selector supplied it leaves the query
unconstrained. -/
theorem applySelectors_spec (db : Db) (args : ThreadsArgs) (h : db.loadFails = false) :
    ∃ q, applySelectors db args = Except.ok q ∧
      ∀ t, q.matches t = (selSat db args t || !anySelector args) := by
  rcases hra : args.rootsAuthoredBy with _ | la <;>
    rcases hrf : args.rootsAuthoredBySomeoneFollowedBy with _ | lb <;>
      rcases hhf : args.hasRepliesAuthoredBySomeoneFollowedBy with _ | lc <;>
        rcases hhb : args.hasRepliesAuthoredBy with _ | ld <;>
  · simp only [applySelectors, hra, hrf, hhf, hhb, Db.load, h, Bool.false_eq_true,
      if_false, except_bind_ok, except_pure]
    exact ⟨_, rfl, fun t => by
      simp [selSat, anySelector, satRootsAuthoredBy, satRootsFollowed, satRepliesFollowed,
        satRepliesAuthoredBy, hra, hrf, hhf, hhb, BoxedQuery.or_filter, BoxedQuery.init,
        BoxedQuery.matches, Bool.or_assoc]⟩

theorem except_bind_err {α β : Type} (e : String) (f : α → Except String β) :
    ((Except.error e : Except String α) >>= f) = Except.error e := rfl

/-- Unfolding `composeQuery` once the selector stage has produced a query. -/
theorem composeQuery_eq (db : Db) (args : ThreadsArgs) (q0 : BoxedQuery)
    (hs : applySelectors db args = Except.ok q0) :
    composeQuery db args =
      (applyCursors (applyPrivacy q0 args.privacy) args.before args.after).map finalQuery := by
  unfold composeQuery
  rw [hs, except_bind_ok]
  rcases hac : applyCursors (applyPrivacy q0 args.privacy) args.before args.after with e | q <;>
    simp [hac, Except.map, except_bind_ok, except_bind_err, except_pure]

theorem except_map_ok_inv {α β : Type} (f : α → β) (x : Except String α) (y : β)
    (h : x.map f = Except.ok y) : ∃ z, x = Except.ok z ∧ y = f z := by
  cases x with
  | ok z =>
      refine ⟨z, rfl, ?_⟩
      simpa [Except.map] using h.symm
  | error e => simp [Except.map] at h

/-- The selector stage never reads the privacy argument. -/
theorem applySelectors_setPrivacy (db : Db) (args : ThreadsArgs) (p : Privacy) :
    applySelectors db { args with privacy := p } = applySelectors db args := rfl

/-- A successful cursor stage contributes one bound predicate, ANDed onto
whatever query it is given. -/
theorem applyCursors_pred (q : BoxedQuery) (b a : Option String) (q' : BoxedQuery)
    (h : applyCursors q b a = Except.ok q') :
    ∃ cp : ThreadRow → Bool,
      (∀ t, q'.matches t = (q.matches t && cp t)) ∧
      ∀ q2, ∃ q2', applyCursors q2 b a = Except.ok q2' ∧
        ∀ t, q2'.matches t = (q2.matches t && cp t) := by
  rcases b with _ | bs <;> rcases a with _ | as
  · simp only [applyCursors, except_pure, Except.ok.injEq] at h
    subst h
    exact ⟨fun _ => true, fun t => by simp, fun q2 => ⟨q2, rfl, fun t => by simp⟩⟩
  · rcases hd : decode_cursor as with e | c
    · simp only [applyCursors, hd, except_bind_err] at h
      exact Except.noConfusion h
    · simp only [applyCursors, hd, except_bind_ok, except_pure, Except.ok.injEq] at h
      subst h
      refine ⟨fun t => seqLtB t.flumeSeq c, fun t => matches_filter q _ t,
        fun q2 => ⟨_, ?_, fun t => matches_filter q2 _ t⟩⟩
      simp [applyCursors, hd, except_bind_ok, except_pure]
  · rcases hd : decode_cursor bs with e | c
    · simp only [applyCursors, hd, except_bind_err] at h
      exact Except.noConfusion h
    · simp only [applyCursors, hd, except_bind_ok, except_pure, Except.ok.injEq] at h
      subst h
      refine ⟨fun t => seqGtB t.flumeSeq c, fun t => matches_filter q _ t,
        fun q2 => ⟨_, ?_, fun t => matches_filter q2 _ t⟩⟩
      simp [applyCursors, hd, except_bind_ok, except_pure]
  · simp only [applyCursors] at h
    exact Except.noConfusion h

/-- Inverting a successful assembly: the connection's keys are the first
components of the executed rows. -/
theorem assemble_ok_inv (n : Int) (results : List (Int × Option Int))
    (conn : ThreadConnection) (h : assemble n results = ThreadsResult.ok conn) :
    conn.threadKeys = results.map Prod.fst := by
  unfold assemble at h
  rcases hh : results.head? with _ | r1
  · simp only [hh] at h
    exact ThreadsResult.noConfusion h
  simp only [hh] at h
  rcases hs1 : r1.2 with _ | f
  · simp only [hs1] at h
    exact ThreadsResult.noConfusion h
  simp only [hs1] at h
  rcases hh2 : results.getLast? with _ | r2
  · simp only [hh2] at h
    exact ThreadsResult.noConfusion h
  simp only [hh2] at h
  rcases hs2 : r2.2 with _ | g
  · simp only [hs2] at h
    exact ThreadsResult.noConfusion h
  simp only [hs2] at h
  cases h
  rfl

/-- Any executed row originates in a stored thread row satisfying the
composed WHERE clause. -/
theorem mem_runQuery (db : Db) (q : BoxedQuery) (limit : Int) (p : Int × Option Int)
    (hp : p ∈ runQuery db q limit) :
    ∃ t ∈ db.threads, q.matches t = true ∧ selectRow t = p := by
  unfold runQuery at hp
  have h1 := List.mem_of_mem_take hp
  have h2 := (List.perm_insertionSort rowBefore
    (((db.threads.filter q.matches).map selectRow).dedup)).mem_iff.mp h1
  have h3 := List.mem_dedup.mp h2
  rcases List.mem_map.mp h3 with ⟨t, ht, rfl⟩
  rcases List.mem_filter.mp ht with ⟨htm, hqm⟩
  exact ⟨t, htm, hqm, rfl⟩

/-- When the deduplicated match set fits within the limit, the executed rows
are exactly the matching rows. -/
theorem runQuery_full (db : Db) (q : BoxedQuery) (limit : Int)
    (hfit : (((db.threads.filter q.matches).map selectRow).dedup).length ≤ limit.toNat)
    (p : Int × Option Int) :
    p ∈ runQuery db q limit ↔ ∃ t ∈ db.threads, q.matches t = true ∧ selectRow t = p := by
  unfold runQuery
  rw [List.take_of_length_le (by rw [List.length_insertionSort]; exact hfit)]
  rw [(List.perm_insertionSort rowBefore _).mem_iff, List.mem_dedup]
  constructor
  · intro h3
    rcases List.mem_map.mp h3 with ⟨t, ht, rfl⟩
    rcases List.mem_filter.mp ht with ⟨htm, hqm⟩
    exact ⟨t, htm, hqm, rfl⟩
  · rintro ⟨t, htm, hqm, rfl⟩
    exact List.mem_map.mpr ⟨t, List.mem_filter.mpr ⟨htm, hqm⟩, rfl⟩

/-- The executed result never exceeds the limit. -/
theorem length_runQuery_le (db : Db) (q : BoxedQuery) (limit : Int) :
    (runQuery db q limit).length ≤ limit.toNat := by
  unfold runQuery
  exact List.length_take_le _ _

/-- Unfolding the privacy stage's effect on the WHERE clause. -/
theorem matches_applyPrivacy (q : BoxedQuery) (p : Privacy) (t : ThreadRow) :
    (applyPrivacy q p).matches t = (q.matches t && privacyHolds p t) := by
  cases p <;>
    simp [applyPrivacy, matches_filter, privacyHolds] <;>
    cases t.isDecrypted <;> simp

/-- Unfolding the final root-post restriction's effect on the WHERE clause. -/
theorem matches_finalQuery (q : BoxedQuery) (t : ThreadRow) :
    (finalQuery q).matches t = (q.matches t && isRootPost t) := by
  unfold finalQuery isRootPost
  rw [matches_filter, matches_filter, Bool.and_assoc]

/-! ## Codec roundtrip lemmas -/

theorem b64Index_b64Char (i : Nat) (h : i < 64) : b64Index (b64Char i) = some i := by
  have H : ∀ j < 64, b64Index (b64Char j) = some j := by decide
  exact H i h

theorem b64Char_ne_pad (i : Nat) (h : i < 64) : b64Char i ≠ '=' := by
  have H : ∀ j < 64, b64Char j ≠ '=' := by decide
  exact H i h

theorem b64_roundtrip8 (b0 b1 b2 b3 b4 b5 b6 b7 : Nat)
    (h0 : b0 < 256) (h1 : b1 < 256) (h2 : b2 < 256) (h3 : b3 < 256)
    (h4 : b4 < 256) (h5 : b5 < 256) (h6 : b6 < 256) (h7 : b7 < 256) :
    b64DecodeGroups (b64EncodeGroups [b0, b1, b2, b3, b4, b5, b6, b7]) =
      some [b0, b1, b2, b3, b4, b5, b6, b7] := by
  have e0 := b64Index_b64Char (b0 / 4) (by omega)
  have e1 := b64Index_b64Char ((b0 % 4) * 16 + b1 / 16) (by omega)
  have e2 := b64Index_b64Char ((b1 % 16) * 4 + b2 / 64) (by omega)
  have e3 := b64Index_b64Char (b2 % 64) (by omega)
  have e4 := b64Index_b64Char (b3 / 4) (by omega)
  have e5 := b64Index_b64Char ((b3 % 4) * 16 + b4 / 16) (by omega)
  have e6 := b64Index_b64Char ((b4 % 16) * 4 + b5 / 64) (by omega)
  have e7 := b64Index_b64Char (b5 % 64) (by omega)
  have e8 := b64Index_b64Char (b6 / 4) (by omega)
  have e9 := b64Index_b64Char ((b6 % 4) * 16 + b7 / 16) (by omega)
  have e10 := b64Index_b64Char ((b7 % 16) * 4) (by omega)
  have n2 := b64Char_ne_pad ((b1 % 16) * 4 + b2 / 64) (by omega)
  have n3 := b64Char_ne_pad (b2 % 64) (by omega)
  have n6 := b64Char_ne_pad ((b4 % 16) * 4 + b5 / 64) (by omega)
  have n7 := b64Char_ne_pad (b5 % 64) (by omega)
  have n10 := b64Char_ne_pad ((b7 % 16) * 4) (by omega)
  simp only [b64EncodeGroups, b64DecodeGroups, e0, e1, e2, e3, e4, e5, e6, e7, e8,
    e9, e10, n2, n3, n6, n7, n10, ne_eq, List.cons_ne_nil, and_false, false_and,
    if_false, reduceCtorEq, Option.map_some, Option.some.injEq, List.cons.injEq,
    and_true, if_true, and_self, ite_false, ite_true, not_false_eq_true]
  simp only [Option.map_some', Option.some.injEq, List.cons.injEq]
  refine ⟨?_, ?_, ?_, ?_, ?_, ?_, ?_, ?_, trivial⟩ <;> omega

theorem leReadU64_natToLeBytes8 (n : Nat) (h : n < 2 ^ 64) :
    leReadU64 (natToLeBytes8 n) = n := by
  simp only [leReadU64, natToLeBytes8, List.take, List.foldr]
  omega

theorem i64OfU64_u64OfI64 (s : Int) (h1 : -(2 ^ 63) ≤ s) (h2 : s < 2 ^ 63) :
    i64OfU64 (u64OfI64 s) = s := by
  simp only [i64OfU64, u64OfI64]
  split <;> omega

/-- C3: for every representable signed 64-bit sequence number `s`,
`decode_cursor (encode_cursor s)` succeeds and returns `s`: encoding base64s
the little-endian 8-byte unsigned reinterpretation of `s`, decoding reads the
first 8 decoded bytes back as a little-endian signed 64-bit integer. -/
theorem decode_encode_cursor_roundtrip (s : Int) (hlo : -(2 ^ 63) ≤ s) (hhi : s < 2 ^ 63) :
    decode_cursor (encode_cursor s) = Except.ok s := by
  have hn : u64OfI64 s < 2 ^ 64 := by
    simp only [u64OfI64]; omega
  have hbytes : natToLeBytes8 (u64OfI64 s) =
      [u64OfI64 s % 256, u64OfI64 s / 256 % 256, u64OfI64 s / 256 ^ 2 % 256,
       u64OfI64 s / 256 ^ 3 % 256, u64OfI64 s / 256 ^ 4 % 256, u64OfI64 s / 256 ^ 5 % 256,
       u64OfI64 s / 256 ^ 6 % 256, u64OfI64 s / 256 ^ 7 % 256] := rfl
  have hrt := b64_roundtrip8 (u64OfI64 s % 256) (u64OfI64 s / 256 % 256)
    (u64OfI64 s / 256 ^ 2 % 256) (u64OfI64 s / 256 ^ 3 % 256) (u64OfI64 s / 256 ^ 4 % 256)
    (u64OfI64 s / 256 ^ 5 % 256) (u64OfI64 s / 256 ^ 6 % 256) (u64OfI64 s / 256 ^ 7 % 256)
    (by omega) (by omega) (by omega) (by omega) (by omega) (by omega) (by omega) (by omega)
  simp only [decode_cursor, encode_cursor, base64Encode, base64Decode]
  have htl : (String.mk (b64EncodeGroups (natToLeBytes8 (u64OfI64 s)))).toList =
      b64EncodeGroups (natToLeBytes8 (u64OfI64 s)) := rfl
  rw [htl, hbytes, hrt, ← hbytes]
  have hlen : (natToLeBytes8 (u64OfI64 s)).length = 8 := rfl
  simp only [hlen]
  norm_num
  rw [leReadU64_natToLeBytes8 _ hn, i64OfU64_u64OfI64 s hlo hhi]

/-- Witness for C3 at the concrete sequence number `12345`. -/
theorem decode_encode_cursor_roundtrip_witness :
    -(2 ^ 63) ≤ (12345 : Int) ∧ (12345 : Int) < 2 ^ 63 ∧
      decode_cursor (encode_cursor 12345) = Except.ok 12345 :=
  ⟨by norm_num, by norm_num,
    decode_encode_cursor_roundtrip 12345 (by norm_num) (by norm_num)⟩

/-- On a functioning connection, the resolver is the assembly of the
executed composed query. -/
theorem threads_run_eq (db : Db) (args : ThreadsArgs) (q : BoxedQuery)
    (hq : composeQuery db args = Except.ok q) (hl : db.loadFails = false) :
    threads db args = assemble args.next (runQuery db q args.next) := by
  unfold threads
  rw [hq]
  simp [Db.load, hl]

/-! ## Cursor-bound and error-path theorems -/

/-- C2: with only `before` supplied the query is additionally bounded to
rows whose sequence number is strictly greater than `decode(before)`; with
only `after` supplied, to rows strictly less than `decode(after)`; with
neither supplied no sequence bound is added. -/
theorem threads_cursor_bounds (q : BoxedQuery) (b : String) (c : Int)
    (h : decode_cursor b = Except.ok c) :
    (∃ qb, applyCursors q (some b) none = Except.ok qb ∧
        ∀ t, qb.matches t = (q.matches t && seqGtB t.flumeSeq c)) ∧
      (∃ qa, applyCursors q none (some b) = Except.ok qa ∧
        ∀ t, qa.matches t = (q.matches t && seqLtB t.flumeSeq c)) ∧
      applyCursors q none none = Except.ok q := by
  refine ⟨⟨_, ?_, fun t => matches_filter q _ t⟩, ⟨_, ?_, fun t => matches_filter q _ t⟩, rfl⟩ <;>
    simp [applyCursors, h, except_bind_ok, except_pure]

/-- Witness for C2 at the unconstrained query and the cursor `encode_cursor 42`. -/
theorem threads_cursor_bounds_witness :
    decode_cursor (encode_cursor 42) = Except.ok 42 ∧
      ((∃ qb, applyCursors BoxedQuery.init (some (encode_cursor 42)) none = Except.ok qb ∧
          ∀ t, qb.matches t = (BoxedQuery.init.matches t && seqGtB t.flumeSeq 42)) ∧
        (∃ qa, applyCursors BoxedQuery.init none (some (encode_cursor 42)) = Except.ok qa ∧
          ∀ t, qa.matches t = (BoxedQuery.init.matches t && seqLtB t.flumeSeq 42)) ∧
        applyCursors BoxedQuery.init none none = Except.ok BoxedQuery.init) :=
  ⟨rfl, threads_cursor_bounds BoxedQuery.init (encode_cursor 42) 42 rfl⟩

/-- C4: supplying both `before` and `after` always fails with the
conflicting-cursors error, whatever the other arguments are (on a
connection whose selector loads do not themselves fail first). -/
theorem threads_conflicting_cursors (db : Db) (args : ThreadsArgs) (b a : String)
    (hb : args.before = some b) (ha : args.after = some a) (h : db.loadFails = false) :
    threads db args = ThreadsResult.err "Before and After can't be set at the same time." := by
  obtain ⟨q0, hs, -⟩ := applySelectors_spec db args h
  have hc : composeQuery db args =
      Except.error "Before and After can't be set at the same time." := by
    rw [composeQuery_eq db args q0 hs, hb, ha]
    rfl
  unfold threads
  rw [hc]

/-- Witness for C4: both cursors supplied on the sample database. -/
theorem threads_conflicting_cursors_witness :
    argsBoth.before = some "x" ∧ argsBoth.after = some "y" ∧ dbA.loadFails = false ∧
      threads dbA argsBoth =
        ThreadsResult.err "Before and After can't be set at the same time." :=
  ⟨rfl, rfl, rfl, threads_conflicting_cursors dbA argsBoth "x" "y" rfl rfl rfl⟩

/-- C8: a request whose composed, bounded and limited query matches zero
rows fails with the "No results found" error and returns no connection. -/
theorem threads_no_results_error (db : Db) (args : ThreadsArgs) (q : BoxedQuery)
    (hq : composeQuery db args = Except.ok q) (hl : db.loadFails = false)
    (hempty : runQuery db q args.next = []) :
    threads db args = ThreadsResult.err "No results found" := by
  rw [threads_run_eq db args q hq hl, hempty]
  rfl

/-- Witness for C8: a Private search over a database holding only public
rows matches nothing. -/
theorem threads_no_results_error_witness :
    ∃ q, composeQuery dbNull argsPriv = Except.ok q ∧
      runQuery dbNull q argsPriv.next = [] ∧ dbNull.loadFails = false ∧
      threads dbNull argsPriv = ThreadsResult.err "No results found" :=
  ⟨_, rfl, rfl, rfl, threads_no_results_error dbNull argsPriv _ rfl rfl rfl⟩

/-- C7: on success, `startCursor` encodes the first row's sequence number,
`endCursor` encodes the last row's, and `hasNextPage` is true exactly when
the last sequence number is not `0`. -/
theorem threads_page_info (db : Db) (args : ThreadsArgs) (q : BoxedQuery)
    (k1 k2 fseq lseq : Int)
    (hq : composeQuery db args = Except.ok q) (hl : db.loadFails = false)
    (hfirst : (runQuery db q args.next).head? = some (k1, some fseq))
    (hlast : (runQuery db q args.next).getLast? = some (k2, some lseq)) :
    ∃ conn, threads db args = ThreadsResult.ok conn ∧
      conn.pageInfo.startCursor = some (encode_cursor fseq) ∧
      conn.pageInfo.endCursor = encode_cursor lseq ∧
      (conn.pageInfo.hasNextPage = true ↔ lseq ≠ 0) := by
  rw [threads_run_eq db args q hq hl]
  have hassemble : assemble args.next (runQuery db q args.next) =
      ThreadsResult.ok
        { next := args.next
          threadKeys := (runQuery db q args.next).map Prod.fst
          pageInfo :=
            { startCursor := some (encode_cursor fseq)
              endCursor := encode_cursor lseq
              hasNextPage := lseq != 0 } } := by
    simp only [assemble, hfirst, hlast]
  exact ⟨_, hassemble, rfl, rfl, by simp⟩

/-- Witness for C7 on the sample database: first sequence 100, last 70. -/
theorem threads_page_info_witness :
    ∃ q, composeQuery dbA argsNone = Except.ok q ∧ dbA.loadFails = false ∧
      (runQuery dbA q argsNone.next).head? = some (1, some 100) ∧
      (runQuery dbA q argsNone.next).getLast? = some (4, some 70) ∧
      ∃ conn, threads dbA argsNone = ThreadsResult.ok conn ∧
        conn.pageInfo.startCursor = some (encode_cursor 100) ∧
        conn.pageInfo.endCursor = encode_cursor 70 ∧
        (conn.pageInfo.hasNextPage = true ↔ (70 : Int) ≠ 0) :=
  ⟨_, rfl, rfl, rfl, rfl, threads_page_info dbA argsNone _ 1 4 100 70 rfl rfl rfl rfl⟩

/-- C10: when the query matches at least one row but the first or the last
row carries a NULL `flume_seq`, the request fails with the same
"No results found" error as an empty result — so that error does not imply
zero matches. -/
theorem threads_null_seq_error (db : Db) (args : ThreadsArgs) (q : BoxedQuery)
    (results : List (Int × Option Int))
    (hq : composeQuery db args = Except.ok q) (hl : db.loadFails = false)
    (hr : runQuery db q args.next = results) (hne : results ≠ [])
    (hnull : (∃ r1, results.head? = some r1 ∧ r1.2 = none) ∨
      ∃ r2, results.getLast? = some r2 ∧ r2.2 = none) :
    threads db args = ThreadsResult.err "No results found" := by
  rw [threads_run_eq db args q hq hl, hr]
  rcases results with _ | ⟨⟨k, s⟩, rest⟩
  · exact absurd rfl hne
  rcases s with _ | f
  · simp [assemble]
  · rcases hnull with ⟨r1, h1, h1n⟩ | ⟨r2, h2, h2n⟩
    · simp only [List.head?] at h1
      rw [← Option.some.injEq] at h1n
      cases h1
      exact absurd h1n (by simp)
    · simp only [assemble, List.head?, h2, h2n]

/-- Witness for C10: a database whose only matching root post has a NULL
sequence number still reports "No results found". -/
theorem threads_null_seq_error_witness :
    ∃ q, composeQuery dbNull argsNone = Except.ok q ∧ dbNull.loadFails = false ∧
      runQuery dbNull q argsNone.next = [(5, none)] ∧
      ([((5 : Int), (none : Option Int))] ≠ []) ∧
      threads dbNull argsNone = ThreadsResult.err "No results found" :=
  ⟨_, rfl, rfl, rfl, by simp,
    threads_null_seq_error dbNull argsNone _ [(5, none)] rfl rfl rfl (by simp)
      (Or.inl ⟨(5, none), rfl, rfl⟩)⟩

/-- C9 (failing part): an error in the execution of the final composed
query is *not* returned to the caller as an error value — the resolver
unwraps the final load, so a functioning request on a connection whose
loads fail aborts instead of returning an error. Evaluated at the concrete
failing input: no selectors and no cursors, so the final load is the first
and only fallible step. -/
theorem threads_final_load_unwrap :
    threads dbFail argsNone = ThreadsResult.panicked "database error" := rfl

/-- C6: every successful result holds at most `pageSize` entries, all of
them root messages of content type "post", and the executed rows are
strictly decreasing in sequence number (given the store's invariants that
sequence numbers are non-null and determine the row key). -/
theorem threads_result_shape (db : Db) (args : ThreadsArgs) (q : BoxedQuery)
    (conn : ThreadConnection)
    (hq : composeQuery db args = Except.ok q) (hl : db.loadFails = false)
    (hok : threads db args = ThreadsResult.ok conn)
    (hnn : ∀ t ∈ db.threads, t.flumeSeq ≠ none)
    (hinj : ∀ t1 ∈ db.threads, ∀ t2 ∈ db.threads,
      t1.flumeSeq = t2.flumeSeq → t1.keyId = t2.keyId) :
    conn.threadKeys.length ≤ args.next.toNat ∧
      (∀ k ∈ conn.threadKeys,
        ∃ t ∈ db.threads, t.keyId = k ∧ t.rootKeyId = none ∧ t.contentType = "post") ∧
      ((runQuery db q args.next).map Prod.snd).Pairwise optGt ∧
      conn.threadKeys = (runQuery db q args.next).map Prod.fst := by
  have hkeys : conn.threadKeys = (runQuery db q args.next).map Prod.fst := by
    refine assemble_ok_inv args.next (runQuery db q args.next) conn ?_
    rw [threads_run_eq db args q hq hl] at hok
    exact hok
  obtain ⟨q0, hs, -⟩ := applySelectors_spec db args hl
  have hcomp := composeQuery_eq db args q0 hs
  rw [hq] at hcomp
  obtain ⟨qc, -, hqf⟩ := except_map_ok_inv _ _ _ hcomp.symm
  refine ⟨?_, ?_, ?_, hkeys⟩
  · rw [hkeys, List.length_map]
    exact length_runQuery_le db q args.next
  · intro k hk
    rw [hkeys] at hk
    rcases List.mem_map.mp hk with ⟨p, hp, rfl⟩
    obtain ⟨t, htm, hqm, hsel⟩ := mem_runQuery db q args.next p hp
    rw [hqf, matches_finalQuery, Bool.and_eq_true] at hqm
    rcases hqm with ⟨-, hroot⟩
    rw [isRootPost, Bool.and_eq_true] at hroot
    rcases hroot with ⟨hr1, hr2⟩
    refine ⟨t, htm, ?_, ?_, ?_⟩
    · rw [← hsel]
      rfl
    · exact beq_iff_eq.mp hr1
    · exact beq_iff_eq.mp hr2
  · have hsorted : (List.insertionSort rowBefore
        (((db.threads.filter q.matches).map selectRow).dedup)).Pairwise rowBefore :=
      List.sorted_insertionSort rowBefore _
    have hnodup : (List.insertionSort rowBefore
        (((db.threads.filter q.matches).map selectRow).dedup)).Nodup :=
      ((List.perm_insertionSort rowBefore _).nodup_iff).mpr (List.nodup_dedup _)
    have htakeP : (runQuery db q args.next).Pairwise rowBefore :=
      hsorted.sublist (List.take_sublist _ _)
    have htakeN : (runQuery db q args.next).Nodup :=
      hnodup.sublist (List.take_sublist _ _)
    have hcomb := htakeP.and htakeN
    have hstrict : (runQuery db q args.next).Pairwise (fun p1 p2 => optGt p1.2 p2.2) := by
      refine List.Pairwise.imp_of_mem ?_ hcomb
      intro p1 p2 hp1 hp2 hrel
      obtain ⟨t1, ht1m, -, hsel1⟩ := mem_runQuery db q args.next p1 hp1
      obtain ⟨t2, ht2m, -, hsel2⟩ := mem_runQuery db q args.next p2 hp2
      rcases hx : t1.flumeSeq with _ | x
      · exact absurd hx (hnn t1 ht1m)
      rcases hy : t2.flumeSeq with _ | y
      · exact absurd hy (hnn t2 ht2m)
      have hp1eq : p1 = (t1.keyId, some x) := by rw [← hsel1, selectRow, hx]
      have hp2eq : p2 = (t2.keyId, some y) := by rw [← hsel2, selectRow, hy]
      rcases hrel with ⟨hle, hne⟩
      rw [hp1eq, hp2eq]
      have hyx : y ≤ x := by
        rw [hp1eq, hp2eq] at hle
        simpa [rowBefore, flumeSeqLe] using hle
      rcases lt_or_eq_of_le hyx with hlt | heq
      · exact hlt
      · exfalso
        apply hne
        have hseq : t1.flumeSeq = t2.flumeSeq := by rw [hx, hy, heq]
        have hkey := hinj t1 ht1m t2 ht2m hseq
        rw [hp1eq, hp2eq, hkey, heq]
    exact List.pairwise_map.mpr hstrict

/-- Witness for C6 on the sample database: four root posts, page size 10. -/
theorem threads_result_shape_witness :
    ∃ q conn, composeQuery dbA argsNone = Except.ok q ∧ dbA.loadFails = false ∧
      threads dbA argsNone = ThreadsResult.ok conn ∧
      (∀ t ∈ dbA.threads, t.flumeSeq ≠ none) ∧
      (∀ t1 ∈ dbA.threads, ∀ t2 ∈ dbA.threads,
        t1.flumeSeq = t2.flumeSeq → t1.keyId = t2.keyId) ∧
      (conn.threadKeys.length ≤ argsNone.next.toNat ∧
        (∀ k ∈ conn.threadKeys,
          ∃ t ∈ dbA.threads, t.keyId = k ∧ t.rootKeyId = none ∧ t.contentType = "post") ∧
        ((runQuery dbA q argsNone.next).map Prod.snd).Pairwise optGt ∧
        conn.threadKeys = (runQuery dbA q argsNone.next).map Prod.fst) :=
  ⟨_, _, rfl, rfl, rfl, by decide, by decide,
    threads_result_shape dbA argsNone _ _ rfl rfl rfl (by decide) (by decide)⟩

/-- C5: the privacy mode narrows the OR-composed predicate by conjunction —
`Public` keeps only undecrypted rows, `Private` only decrypted rows, `All`
adds no clause — and over a fixed dataset the Public and Private match sets
are disjoint with union the All match set; on success the returned keys of
a Public (resp. Private) request all come from undecrypted (resp.
decrypted) stored rows. -/
theorem threads_privacy_partition (db : Db) (args : ThreadsArgs) (qa : BoxedQuery)
    (hl : db.loadFails = false)
    (hq : composeQuery db (withPrivacy args Privacy.All) = Except.ok qa) :
    ∃ qp qv,
      composeQuery db (withPrivacy args Privacy.Public) = Except.ok qp ∧
      composeQuery db (withPrivacy args Privacy.Private) = Except.ok qv ∧
      (∀ t, qp.matches t = (qa.matches t && !t.isDecrypted)) ∧
      (∀ t, qv.matches t = (qa.matches t && t.isDecrypted)) ∧
      (∀ t, ¬(qp.matches t = true ∧ qv.matches t = true)) ∧
      (∀ t, qa.matches t = (qp.matches t || qv.matches t)) ∧
      (∀ conn, threads db (withPrivacy args Privacy.Public) = ThreadsResult.ok conn →
        ∀ k ∈ conn.threadKeys, ∃ t ∈ db.threads, t.keyId = k ∧ t.isDecrypted = false) ∧
      (∀ conn, threads db (withPrivacy args Privacy.Private) = ThreadsResult.ok conn →
        ∀ k ∈ conn.threadKeys, ∃ t ∈ db.threads, t.keyId = k ∧ t.isDecrypted = true) := by
  obtain ⟨q0, hs, -⟩ := applySelectors_spec db args hl
  have hsP : ∀ p, applySelectors db (withPrivacy args p) = Except.ok q0 := fun p => hs
  have hcompAll :
      composeQuery db (withPrivacy args Privacy.All) =
        (applyCursors q0 args.before args.after).map finalQuery :=
    composeQuery_eq db (withPrivacy args Privacy.All) q0 (hsP _)
  rw [hcompAll] at hq
  obtain ⟨qc, hac, hqa⟩ := except_map_ok_inv _ _ _ hq
  obtain ⟨cp, hcp, hinst⟩ := applyCursors_pred q0 args.before args.after qc hac
  obtain ⟨qpc, hacp, hcpP⟩ := hinst (applyPrivacy q0 Privacy.Public)
  obtain ⟨qvc, hacv, hcpV⟩ := hinst (applyPrivacy q0 Privacy.Private)
  have hcompP : composeQuery db (withPrivacy args Privacy.Public) =
      Except.ok (finalQuery qpc) := by
    rw [composeQuery_eq db (withPrivacy args Privacy.Public) q0 (hsP _)]
    show (applyCursors (applyPrivacy q0 Privacy.Public) args.before args.after).map
      finalQuery = _
    rw [hacp]
    rfl
  have hcompV : composeQuery db (withPrivacy args Privacy.Private) =
      Except.ok (finalQuery qvc) := by
    rw [composeQuery_eq db (withPrivacy args Privacy.Private) q0 (hsP _)]
    show (applyCursors (applyPrivacy q0 Privacy.Private) args.before args.after).map
      finalQuery = _
    rw [hacv]
    rfl
  have hmp : ∀ t, (finalQuery qpc).matches t =
      (((finalQuery qc).matches t) && !t.isDecrypted) := by
    intro t
    rw [matches_finalQuery, matches_finalQuery, hcpP t, hcp t,
      matches_applyPrivacy]
    cases hd : t.isDecrypted <;>
      simp [privacyHolds, hd, Bool.and_comm, Bool.and_left_comm, Bool.and_assoc]
  have hmv : ∀ t, (finalQuery qvc).matches t =
      (((finalQuery qc).matches t) && t.isDecrypted) := by
    intro t
    rw [matches_finalQuery, matches_finalQuery, hcpV t, hcp t,
      matches_applyPrivacy]
    cases hd : t.isDecrypted <;>
      simp [privacyHolds, hd, Bool.and_comm, Bool.and_left_comm, Bool.and_assoc]
  subst hqa
  refine ⟨finalQuery qpc, finalQuery qvc, hcompP, hcompV, hmp, hmv, ?_, ?_, ?_, ?_⟩
  · rintro t ⟨h1, h2⟩
    rw [hmp t, Bool.and_eq_true] at h1
    rw [hmv t, Bool.and_eq_true] at h2
    rcases h1 with ⟨-, hd1⟩
    rcases h2 with ⟨-, hd2⟩
    rw [hd2] at hd1
    exact Bool.false_ne_true (by simpa using hd1)
  · intro t
    rw [hmp t, hmv t]
    cases h1 : (finalQuery qc).matches t <;> cases h2 : t.isDecrypted <;> simp
  · intro conn hok k hk
    have hkeys := assemble_ok_inv _ _ conn
      (by rw [threads_run_eq db (withPrivacy args Privacy.Public) (finalQuery qpc) hcompP hl] at hok; exact hok)
    rw [hkeys] at hk
    rcases List.mem_map.mp hk with ⟨p, hp, rfl⟩
    obtain ⟨t, htm, hqm, hsel⟩ := mem_runQuery db _ _ p hp
    rw [hmp t, Bool.and_eq_true] at hqm
    rcases hqm with ⟨-, hd⟩
    refine ⟨t, htm, by rw [← hsel]; rfl, ?_⟩
    simpa using hd
  · intro conn hok k hk
    have hkeys := assemble_ok_inv _ _ conn
      (by rw [threads_run_eq db (withPrivacy args Privacy.Private) (finalQuery qvc) hcompV hl] at hok; exact hok)
    rw [hkeys] at hk
    rcases List.mem_map.mp hk with ⟨p, hp, rfl⟩
    obtain ⟨t, htm, hqm, hsel⟩ := mem_runQuery db _ _ p hp
    rw [hmv t, Bool.and_eq_true] at hqm
    rcases hqm with ⟨-, hd⟩
    exact ⟨t, htm, by rw [← hsel]; rfl, hd⟩

/-- Witness for C5 on the sample database (three public rows, one private). -/
theorem threads_privacy_partition_witness :
    ∃ qa, dbA.loadFails = false ∧
      composeQuery dbA (withPrivacy argsNone Privacy.All) = Except.ok qa ∧
      ∃ qp qv,
        composeQuery dbA (withPrivacy argsNone Privacy.Public) = Except.ok qp ∧
        composeQuery dbA (withPrivacy argsNone Privacy.Private) = Except.ok qv ∧
        (∀ t, qp.matches t = (qa.matches t && !t.isDecrypted)) ∧
        (∀ t, qv.matches t = (qa.matches t && t.isDecrypted)) ∧
        (∀ t, ¬(qp.matches t = true ∧ qv.matches t = true)) ∧
        (∀ t, qa.matches t = (qp.matches t || qv.matches t)) ∧
        (∀ conn, threads dbA (withPrivacy argsNone Privacy.Public) = ThreadsResult.ok conn →
          ∀ k ∈ conn.threadKeys, ∃ t ∈ dbA.threads, t.keyId = k ∧ t.isDecrypted = false) ∧
        (∀ conn, threads dbA (withPrivacy argsNone Privacy.Private) = ThreadsResult.ok conn →
          ∀ k ∈ conn.threadKeys, ∃ t ∈ dbA.threads, t.keyId = k ∧ t.isDecrypted = true) :=
  ⟨_, rfl, rfl, threads_privacy_partition dbA argsNone _ rfl rfl⟩

/-- C1: the supplied selectors are combined with OR, never AND — the
composed selector clause holds exactly when at least one supplied selector
matches, and with no selector supplied it is unconstrained; consequently an
uncursored request whose match set fits within the page size returns
exactly the union of the selectors' match sets (narrowed by privacy and the
root-post restriction). -/
theorem threads_selectors_or (db : Db) (args : ThreadsArgs) (h : db.loadFails = false) :
    ∃ q0, applySelectors db args = Except.ok q0 ∧
      (∀ t, q0.matches t = (selSat db args t || !anySelector args)) ∧
      (args.before = none → args.after = none →
        composeQuery db args = Except.ok (finalQuery (applyPrivacy q0 args.privacy)) ∧
        (∀ t, (finalQuery (applyPrivacy q0 args.privacy)).matches t = fullMatch db args t) ∧
        ((((db.threads.filter (fullMatch db args)).map selectRow).dedup).length ≤
            args.next.toNat →
          ∀ conn, threads db args = ThreadsResult.ok conn →
            ∀ k, k ∈ conn.threadKeys ↔
              ∃ t ∈ db.threads, fullMatch db args t = true ∧ t.keyId = k)) := by
  obtain ⟨q0, hs, hmt⟩ := applySelectors_spec db args h
  refine ⟨q0, hs, hmt, ?_⟩
  intro hb ha
  have hcomp : composeQuery db args =
      Except.ok (finalQuery (applyPrivacy q0 args.privacy)) := by
    rw [composeQuery_eq db args q0 hs, hb, ha]
    rfl
  have hfm : ∀ t, (finalQuery (applyPrivacy q0 args.privacy)).matches t =
      fullMatch db args t := by
    intro t
    rw [matches_finalQuery, matches_applyPrivacy, hmt t, fullMatch]
  refine ⟨hcomp, hfm, ?_⟩
  intro hfit conn hok k
  have hfilt : db.threads.filter (finalQuery (applyPrivacy q0 args.privacy)).matches =
      db.threads.filter (fullMatch db args) :=
    List.filter_congr (fun t _ => hfm t)
  have hkeys := assemble_ok_inv args.next
    (runQuery db (finalQuery (applyPrivacy q0 args.privacy)) args.next) conn
    (by rw [threads_run_eq db args (finalQuery (applyPrivacy q0 args.privacy)) hcomp h] at hok
        exact hok)
  rw [hkeys]
  have hfit' : (((db.threads.filter
      (finalQuery (applyPrivacy q0 args.privacy)).matches).map selectRow).dedup).length ≤
      args.next.toNat := by
    rw [hfilt]
    exact hfit
  constructor
  · intro hk
    rcases List.mem_map.mp hk with ⟨p, hp, rfl⟩
    obtain ⟨t, htm, hqm, hsel⟩ := mem_runQuery db _ args.next p hp
    refine ⟨t, htm, ?_, by rw [← hsel]; rfl⟩
    rw [← hfm t]
    exact hqm
  · rintro ⟨t, htm, hfmt, hkeq⟩
    subst hkeq
    refine List.mem_map.mpr ⟨selectRow t, ?_, rfl⟩
    refine (runQuery_full db _ args.next hfit' (selectRow t)).mpr ⟨t, htm, ?_, rfl⟩
    rw [hfm t]
    exact hfmt

/-- Witness for C1: two disjoint selectors on the sample database. -/
theorem threads_selectors_or_witness :
    dbA.loadFails = false ∧
      ∃ q0, applySelectors dbA argsSel = Except.ok q0 ∧
        (∀ t, q0.matches t = (selSat dbA argsSel t || !anySelector argsSel)) ∧
        (argsSel.before = none → argsSel.after = none →
          composeQuery dbA argsSel =
            Except.ok (finalQuery (applyPrivacy q0 argsSel.privacy)) ∧
          (∀ t, (finalQuery (applyPrivacy q0 argsSel.privacy)).matches t =
            fullMatch dbA argsSel t) ∧
          ((((dbA.threads.filter (fullMatch dbA argsSel)).map selectRow).dedup).length ≤
              argsSel.next.toNat →
            ∀ conn, threads dbA argsSel = ThreadsResult.ok conn →
              ∀ k, k ∈ conn.threadKeys ↔
                ∃ t ∈ dbA.threads, fullMatch dbA argsSel t = true ∧ t.keyId = k)) :=
  ⟨rfl, threads_selectors_or dbA argsSel rfl⟩

end SsbPatchql
